import Mathlib

/-!
Verification of the LoggerDeploy data-plane engine.

This file gives a shallow embedding, in Lean 4, of the core algorithms of the
LoggerDeploy backend (`core_logger`): Modbus address parsing and float byte
assembly (`services/modbus_service.py`), trigger evaluation with deadband and
cooldown, batch buffering and metrics (`services/job_executor.py`), mapping
health computation (`views/mappings.py`, `views/tables.py`), and the storage
engine pool with batched inserts (`services/storage_service.py`).

Conventions of the embedding:
* Python `int`/`float` numerics are modelled as `ℚ` (exact arithmetic);
  Python `bool` is a subclass of `int` in the runtime, so a boolean value
  participates in numeric comparisons as `0`/`1`.
* Python dictionaries observed only through lookup are modelled either as
  association lists (`List (String × α)`) or as functions `String → Option α`.
* Code that can raise an exception is modelled with `Option`: `none` means the
  exception propagates out of the modelled function.
* Timestamps are rationals measured in milliseconds.
-/

namespace LoggerDeploy

/-- A Python runtime value as it appears in trigger evaluation: a numeric
(`int`/`float`, and `bool`, which Python treats as the integers `0`/`1`)
or a non-numeric value, represented by its string form. -/
inductive PyVal where
  | num (q : ℚ)
  | str (s : String)
  deriving DecidableEq, Repr

/-- Evaluation of the `change` operator, `job_executor.py` lines 380-383:

    if old_val is not None:
        diff = abs(new_val - old_val) if isinstance(new_val, (int, float)) else (new_val != old_val)
        fired = diff > deadband if isinstance(diff, (int, float)) else diff

When `new_val` is non-numeric, `diff` is the Python bool `new_val != old_val`;
since `bool` is a subclass of `int`, `isinstance(diff, (int, float))` is true
and the branch `diff > deadband` runs with `diff ∈ {0, 1}` — the final
`else diff` branch is unreachable. When `new_val` is numeric but `old_val` is
non-numeric, `new_val - old_val` raises `TypeError` (modelled as `none`). -/
def changeFired (oldVal : Option PyVal) (newVal : PyVal) (deadband : ℚ) : Option Bool :=
  match oldVal with
  | none => some false
  | some o =>
    match newVal with
    | .num n =>
      match o with
      | .num q => some (decide (|n - q| > deadband))
      | .str _ => none
    | .str s =>
      some (decide ((if PyVal.str s = o then (0 : ℚ) else 1) > deadband))

/-- Comparison of `new_val` against a numeric threshold for the operators
`>`, `>=`, `<`, `<=` (`job_executor.py` lines 393-403): with no threshold the
trigger does not fire; comparing a non-numeric value against a number raises
`TypeError` in Python 3 (modelled as `none`). -/
def numCmpFired (newVal : PyVal) (threshold : Option ℚ) (f : ℚ → ℚ → Bool) : Option Bool :=
  match threshold with
  | none => some false
  | some t =>
    match newVal with
    | .num n => some (f n t)
    | .str _ => none

/-- Evaluation of one trigger operator on the current and previous value,
`job_executor.py` lines 378-409. Returns `none` when the Python code would
raise `TypeError`. An unrecognised operator leaves `fired = False`. -/
def opFired (operator : String) (newVal : PyVal) (oldVal : Option PyVal)
    (threshold : Option ℚ) (deadband : ℚ) : Option Bool :=
  if operator = "change" then
    changeFired oldVal newVal deadband
  else if operator = "rising" then
    -- fired = old_val <= threshold and new_val > threshold  (short-circuit)
    match oldVal, threshold with
    | some o, some t =>
      match o with
      | .num oq =>
        if oq ≤ t then
          match newVal with
          | .num nq => some (decide (nq > t))
          | .str _ => none
        else some false
      | .str _ => none
    | _, _ => some false
  else if operator = "falling" then
    -- fired = old_val >= threshold and new_val < threshold  (short-circuit)
    match oldVal, threshold with
    | some o, some t =>
      match o with
      | .num oq =>
        if oq ≥ t then
          match newVal with
          | .num nq => some (decide (nq < t))
          | .str _ => none
        else some false
      | .str _ => none
    | _, _ => some false
  else if operator = ">" then
    numCmpFired newVal threshold (fun n t => decide (n > t))
  else if operator = ">=" then
    numCmpFired newVal threshold (fun n t => decide (n ≥ t))
  else if operator = "<" then
    numCmpFired newVal threshold (fun n t => decide (n < t))
  else if operator = "<=" then
    numCmpFired newVal threshold (fun n t => decide (n ≤ t))
  else if operator = "==" then
    -- equality across types is False in Python, never an error
    match threshold with
    | none => some false
    | some t =>
      match newVal with
      | .num n => some (decide (n = t))
      | .str _ => some false
  else if operator = "!=" then
    match threshold with
    | none => some false
    | some t =>
      match newVal with
      | .num n => some (decide (n ≠ t))
      | .str _ => some true
  else
    some false

/-- The four Modbus register spaces. -/
inductive RegKind where
  | coil
  | discrete
  | inputReg
  | holding
  deriving DecidableEq, Repr

/-- `ModbusService._parse_address`, `modbus_service.py` lines 254-274:
checks the holding range first, then input, discrete, coil, and defaults
to a holding register with the raw address. -/
def parseAddress (address : ℤ) : RegKind × ℤ :=
  if 40001 ≤ address ∧ address ≤ 49999 then (RegKind.holding, address - 40001)
  else if 30001 ≤ address ∧ address ≤ 39999 then (RegKind.inputReg, address - 30001)
  else if 10001 ≤ address ∧ address ≤ 19999 then (RegKind.discrete, address - 10001)
  else if 0 ≤ address ∧ address ≤ 9999 then (RegKind.coil, address)
  else (RegKind.holding, address)

/-- The address-parsing map as the specification words it: coil on
`[0, 9999]`, discrete on `[10001, 19999]` with offset `a - 10001`, input on
`[30001, 39999]` with offset `a - 30001`, holding on `[40001, 49999]` with
offset `a - 40001`, and holding with the raw address otherwise. -/
def specParseAddress (address : ℤ) : RegKind × ℤ :=
  if 0 ≤ address ∧ address ≤ 9999 then (RegKind.coil, address)
  else if 10001 ≤ address ∧ address ≤ 19999 then (RegKind.discrete, address - 10001)
  else if 30001 ≤ address ∧ address ≤ 39999 then (RegKind.inputReg, address - 30001)
  else if 40001 ≤ address ∧ address ≤ 49999 then (RegKind.holding, address - 40001)
  else (RegKind.holding, address)

/-- One configured job trigger (`job_executor.py` lines 365-370): field name,
operator string, optional numeric threshold (`value`), deadband, cooldown. -/
structure Trigger where
  field : String
  operator : String
  value : Option ℚ
  deadband : ℚ
  cooldown_ms : ℚ
  deriving DecidableEq, Repr

/-- The three trigger counters of `JobMetrics` (`job_executor.py` lines 28-30). -/
structure TrigMetrics where
  evaluated : ℕ
  fired : ℕ
  suppressed : ℕ
  deriving DecidableEq, Repr

/-- `JobMetrics.record_trigger` (`job_executor.py` lines 55-60): always
increments `triggers_evaluated`; increments `triggers_fired` when `fired`
and `triggers_suppressed` when `suppressed`. -/
def recordTrigger (m : TrigMetrics) (fired suppressed : Bool) : TrigMetrics :=
  { evaluated := m.evaluated + 1
    fired := if fired then m.fired + 1 else m.fired
    suppressed := if suppressed then m.suppressed + 1 else m.suppressed }

/-- Mutable state threaded through one call of `_evaluate_triggers`: the
per-job cooldown dictionary (key `"table_id:field"` → timestamp of the last
non-suppressed fire, in ms), the metrics counters, and the local `any_fired`
flag. `fireLog` is a ghost field recording the timestamp of every
non-suppressed fire, appended exactly where the code executes
`cooldowns[cooldown_key] = now`. -/
structure EvalState where
  cooldowns : String → Option ℚ
  metrics : TrigMetrics
  anyFired : Bool
  fireLog : List ℚ

/-- The cooldown check and metrics recording for one trigger whose raw
outcome is `fired0`, `job_executor.py` lines 411-426:

    cooldown_key = f"{table_id}:{field}"
    if fired and cooldown_ms > 0:
        last_fire = cooldowns.get(cooldown_key)
        if last_fire:
            elapsed_ms = (now - last_fire).total_seconds() * 1000
            if elapsed_ms < cooldown_ms:
                metrics.record_trigger(fired=True, suppressed=True)
                fired = False  # Suppressed by cooldown
    if fired:
        cooldowns[cooldown_key] = now
        any_fired = True
        metrics.record_trigger(fired=True, suppressed=False)
    else:
        metrics.record_trigger(fired=False, suppressed=False)

Note that a suppressed fire falls through to the final `else` branch, so it
calls `record_trigger` twice. -/
def cooldownGate (cooldown_ms : ℚ) (ckey : String) (now : ℚ) (fired0 : Bool)
    (s : EvalState) : EvalState :=
  let sup : Bool :=
    fired0 && decide (0 < cooldown_ms) &&
      (match s.cooldowns ckey with
       | some lastFire => decide (now - lastFire < cooldown_ms)
       | none => false)
  if sup then
    { s with metrics := recordTrigger (recordTrigger s.metrics true true) false false }
  else if fired0 then
    { s with
      cooldowns := fun k => if k = ckey then some now else s.cooldowns k
      metrics := recordTrigger s.metrics true false
      anyFired := true
      fireLog := s.fireLog ++ [now] }
  else
    { s with metrics := recordTrigger s.metrics false false }

/-- Processing of one trigger inside the `for trigger in triggers` loop of
`_evaluate_triggers` (`job_executor.py` lines 365-426): skip when the field is
absent from `values`, evaluate the operator on the new and previous value,
then apply the cooldown gate. `none` models a `TypeError` escaping the loop. -/
def triggerStep (tableId : String) (values lastValues : List (String × PyVal))
    (now : ℚ) (s : EvalState) (t : Trigger) : Option EvalState :=
  match values.lookup t.field with
  | none => some s
  | some newVal =>
    match opFired t.operator newVal (lastValues.lookup t.field) t.value t.deadband with
    | none => none
    | some fired0 => some (cooldownGate t.cooldown_ms (tableId ++ ":" ++ t.field) now fired0 s)

/-- The trigger loop of `_evaluate_triggers`, folding `triggerStep` over the
configured triggers. -/
def evalTriggersAux (tableId : String) (values lastValues : List (String × PyVal))
    (now : ℚ) : List Trigger → EvalState → Option EvalState
  | [], s => some s
  | t :: ts, s =>
    match triggerStep tableId values lastValues now s t with
    | none => none
    | some s' => evalTriggersAux tableId values lastValues now ts s'

/-- Result of one successful call of `_evaluate_triggers`: the final mutable
state, the new stored last-values for the `(job_id, table_id)` pair — line 431
`self._job_last_values[job_id][table_id] = values.copy()` — and the returned
`any_fired` flag. -/
structure EvalResult where
  state : EvalState
  lastValuesOut : List (String × PyVal)
  shouldWrite : Bool

/-- One call of `JobExecutor._evaluate_triggers` (`job_executor.py` lines
346-433) for a given table: starts with `any_fired = False`, runs every
trigger, then replaces the stored last-values wholesale by a copy of `values`
and returns `any_fired`. `none` models an escaping `TypeError`. -/
def evaluateTriggers (tableId : String) (values lastValues : List (String × PyVal))
    (now : ℚ) (triggers : List Trigger) (cds : String → Option ℚ)
    (m : TrigMetrics) (log : List ℚ) : Option EvalResult :=
  match evalTriggersAux tableId values lastValues now triggers
      { cooldowns := cds, metrics := m, anyFired := false, fireLog := log } with
  | none => none
  | some s' => some { state := s', lastValuesOut := values, shouldWrite := s'.anyFired }

/-- The batch bookkeeping of `_run_job_loop` for a single table: the pending
buffer `batch_buffer[table_id]` and, as an observation log, the list of row
batches handed to `write_callback`, in order. Rows are abstracted by `ℕ`
identifiers. -/
structure BatchLog where
  buffer : List ℕ
  writes : List (List ℕ)
  deriving DecidableEq, Repr

/-- One read with `should_write = True` in `_run_job_loop`
(`job_executor.py` lines 308-323): the row is appended to the buffer and,
if the buffer has reached `batch_size`, `write_callback` is invoked with the
whole buffer and the buffer is cleared. -/
def enqueueRow (batch_size : ℕ) (s : BatchLog) (row : ℕ) : BatchLog :=
  let buf := s.buffer ++ [row]
  if batch_size ≤ buf.length then { buffer := [], writes := s.writes ++ [buf] }
  else { buffer := buf, writes := s.writes }

/-- A sequence of reads with `should_write = True`, in order. -/
def enqueueAll (batch_size : ℕ) (s : BatchLog) (rows : List ℕ) : BatchLog :=
  rows.foldl (enqueueRow batch_size) s

/-- The final flush on job stop (`job_executor.py` lines 336-342): a
non-empty buffer is handed to `write_callback` once; an empty one is not. -/
def stopFlush (s : BatchLog) : BatchLog :=
  if s.buffer = [] then s
  else { buffer := [], writes := s.writes ++ [s.buffer] }

/-- The `StorageService` engine pool: the set of keys
`f"{provider}:{connection_string}"` that currently hold an engine
(`storage_service.py` line 46). -/
structure StoragePool where
  engines : List String
  deriving DecidableEq, Repr

/-- `StorageService._get_engine` (`storage_service.py` lines 86-105): returns
the pooled engine for the key, creating and caching one when absent. -/
def getEnginePool (p : StoragePool) (key : String) : StoragePool :=
  if key ∈ p.engines then p else { engines := p.engines ++ [key] }

/-- `StorageService._drop_engine` (`storage_service.py` lines 107-115): pops
the key from the pool and disposes the engine. Called by `test_connection`
on failure; `insert_batch` has no call to it. -/
def dropEngine (p : StoragePool) (key : String) : StoragePool :=
  { engines := p.engines.filter (fun k => k ≠ key) }

/-- `StorageService.insert_batch` (`storage_service.py` lines 339-387), with
the database interaction abstracted by the flag `dbFails`: an empty batch is
a no-op success; otherwise the engine is fetched (and pooled) and the insert
either succeeds with `len(rows)` rows or raises, in which case the `except`
clause logs and returns `(False, 0, error)` — it does not touch the pool. -/
def insertBatch (p : StoragePool) (key : String) (rows : List ℕ) (dbFails : Bool) :
    StoragePool × Bool × ℕ :=
  if rows = [] then (p, true, 0)
  else
    let p1 := getEnginePool p key
    if dbFails then (p1, false, 0) else (p1, true, rows.length)

/-- The write-related counters of `JobMetrics` (`job_executor.py` lines 25-27). -/
structure WriteMetrics where
  writes : ℕ
  write_errors : ℕ
  rows_written : ℕ
  deriving DecidableEq, Repr

/-- `JobMetrics.record_write` (`job_executor.py` lines 46-53): `writes` always
increments; on success `rows_written` grows by the batch size, on failure
`write_errors` increments and `rows_written` is untouched. -/
def recordWrite (m : WriteMetrics) (rows : ℕ) (success : Bool) : WriteMetrics :=
  if success then
    { writes := m.writes + 1, write_errors := m.write_errors
      rows_written := m.rows_written + rows }
  else
    { writes := m.writes + 1, write_errors := m.write_errors + 1
      rows_written := m.rows_written }

/-- A full batch flush inside the job loop (`job_executor.py` lines 314-323)
with the write callback of `views/jobs.py` lines 303-317, which invokes
`StorageService.insert_batch` and returns its success flag: the write result
is recorded with `rows = len(buffer)` and the buffer is cleared
unconditionally (`batch_buffer[table_id] = []`). -/
def flushBatch (p : StoragePool) (m : WriteMetrics) (key : String)
    (buffer : List ℕ) (dbFails : Bool) : StoragePool × WriteMetrics × List ℕ :=
  let r := insertBatch p key buffer dbFails
  (r.1, recordWrite m buffer.length r.2.1, [])

/-- The `mapping_health` enumeration of `DeviceTable`. -/
inductive Health where
  | mapped
  | partialHealth
  | unmapped
  deriving DecidableEq, Repr

/-- The mapping-health computation of
`FieldMappingViewSet._update_mapping_health` (`views/mappings.py` lines
304-320) and `DeviceTableViewSet.mapping_health` (`views/tables.py` lines
196-226), identical in both places:

    if not schema_fields:
        health = MappingHealth.UNMAPPED
    elif mapped_fields >= schema_fields:
        health = MappingHealth.MAPPED
    elif mapped_fields:
        health = MappingHealth.PARTIAL
    else:
        health = MappingHealth.UNMAPPED
-/
def computeMappingHealth (schemaFields mappedFields : Finset String) : Health :=
  if schemaFields = ∅ then Health.unmapped
  else if schemaFields ⊆ mappedFields then Health.mapped
  else if mappedFields ≠ ∅ then Health.partialHealth
  else Health.unmapped

/-- The average latency of `JobMetrics.get_summary` (`job_executor.py`
lines 86-87): `sum(lats) / len(lats) if lats else None`, with floats
modelled as exact rationals. -/
def avgLatency (lats : List ℚ) : Option ℚ :=
  if lats = [] then none else some (lats.sum / (lats.length : ℚ))

/-- The p95 index `int(len(lats) * 0.95)` of `JobMetrics.get_summary`
(`job_executor.py` lines 88-89), with the float product modelled exactly.
(`int()` truncates toward zero, which on this non-negative value is the
floor; for every window size reachable under the deque cap of 1000 samples
the IEEE-754 double product `len * 0.95` floors to the same integer as the
exact product, since the representation error of `0.95` is below half an
ulp of the products involved.) -/
def p95Index (n : ℕ) : ℕ :=
  Int.toNat ⌊(n : ℚ) * (95 / 100)⌋

/-- The p95 latency of `JobMetrics.get_summary` (`job_executor.py` lines
88-89): `sorted(lats)[int(len(lats) * 0.95)] if len(lats) > 20 else None`. -/
def p95Latency (lats : List ℚ) : Option ℚ :=
  if 20 < lats.length then (lats.insertionSort (· ≤ ·))[p95Index lats.length]?
  else none

/-- `struct.pack(">HH", a, b)`: each 16-bit value as two bytes, high byte
first; `struct.error` (modelled as `none`) when a value exceeds 16 bits. -/
def pack2BE (a b : ℕ) : Option (List ℕ) :=
  if a < 65536 ∧ b < 65536 then some [a / 256, a % 256, b / 256, b % 256] else none

/-- `struct.pack("<HH", a, b)`: each 16-bit value as two bytes, low byte
first; `struct.error` (modelled as `none`) when a value exceeds 16 bits. -/
def pack2LE (a b : ℕ) : Option (List ℕ) :=
  if a < 65536 ∧ b < 65536 then some [a % 256, a / 256, b % 256, b / 256] else none

/-- The byte assembly of `ModbusService._registers_to_float`
(`modbus_service.py` lines 282-321): fewer than two registers raises
`ValueError`; otherwise the four bytes handed to the big-endian `>f`
decoder are assembled from `reg1 = registers[0]`, `reg2 = registers[1]`
according to `byte_order`, any unknown byte order falling back to `>HH`
of `(reg1, reg2)`. -/
def registersToFloatBytes (registers : List ℕ) (byteOrder : String) : Option (List ℕ) :=
  match registers with
  | reg1 :: reg2 :: _ =>
    if byteOrder = "ABCD" then pack2BE reg1 reg2
    else if byteOrder = "DCBA" then pack2LE reg2 reg1
    else if byteOrder = "BADC" then pack2BE reg2 reg1
    else if byteOrder = "CDAB" then pack2LE reg1 reg2
    else pack2BE reg1 reg2
  | _ => none

/-- The byte-order table as the specification words it, in terms of the
high and low bytes of the two registers: ABCD ↦ `R1_hi R1_lo R2_hi R2_lo`,
DCBA ↦ `R2_lo R2_hi R1_lo R1_hi`, BADC ↦ `R2_hi R2_lo R1_hi R1_lo`,
CDAB ↦ `R1_lo R1_hi R2_lo R2_hi`, with anything else read as ABCD. -/
def specFloatBytes (r1 r2 : ℕ) (byteOrder : String) : List ℕ :=
  let r1hi := r1 / 256
  let r1lo := r1 % 256
  let r2hi := r2 / 256
  let r2lo := r2 % 256
  if byteOrder = "DCBA" then [r2lo, r2hi, r1lo, r1hi]
  else if byteOrder = "BADC" then [r2hi, r2lo, r1hi, r1lo]
  else if byteOrder = "CDAB" then [r1lo, r1hi, r2lo, r2hi]
  else [r1hi, r1lo, r2hi, r2lo]

/-- The number of configured triggers whose field is present in the current
`values` dictionary — the triggers that are not skipped by
`if field not in values: continue` (`job_executor.py` lines 372-373). -/
def countPresent (values : List (String × PyVal)) (triggers : List Trigger) : ℕ :=
  (triggers.filter (fun t => (values.lookup t.field).isSome)).length

/-- Total number of rows a `BatchLog` has absorbed: rows already handed to
`write_callback` plus rows still buffered. -/
def totalRows (s : BatchLog) : ℕ :=
  (s.writes.map List.length).sum + s.buffer.length

/-- The run of the cooldown gate (`job_executor.py` lines 411-426) over a
sequence of evaluation events for one `(table_id, field)` key, each event
being the evaluation time and the raw trigger outcome before the cooldown
check. -/
def runCooldown (c : ℚ) (ckey : String) (s : EvalState) : List (ℚ × Bool) → EvalState
  | [] => s
  | e :: es => runCooldown c ckey (cooldownGate c ckey e.1 e.2 s) es

/-! ## Theorems -/

/-- C1: for a `change` trigger on non-numeric values the deadband is **not**
ignored, contradicting the spec: with `old = "a"`, `new = "b"` and
`deadband = 1` the trigger does not fire even though `new ≠ old`, because the
Python bool `new != old` is an `int` instance and the code compares it
against the deadband; with `deadband = 0` the same pair does fire. The spec
(the trigger fires iff `new ≠ old`, deadband ignored) matches the code's
unreachable `else diff` branch, so the code is the slip. -/
theorem changeFired_nonNumeric_deadband_bug :
    changeFired (some (PyVal.str "a")) (PyVal.str "b") 1 = some false ∧
    PyVal.str "b" ≠ PyVal.str "a" ∧
    changeFired (some (PyVal.str "a")) (PyVal.str "b") 0 = some true := by
  refine ⟨rfl, by decide, rfl⟩

/-- C3: the Modbus address parser agrees with the specification's case map on
every integer address: coil on `[0, 9999]`, discrete on `[10001, 19999]`
(offset `a − 10001`), input on `[30001, 39999]` (offset `a − 30001`),
holding on `[40001, 49999]` (offset `a − 40001`), and holding with the raw
address everywhere else, including `10000`, `[20000, 30000]`, values above
`49999`, and negative addresses. -/
theorem parseAddress_eq_spec (a : ℤ) : parseAddress a = specParseAddress a := by
  unfold parseAddress specParseAddress
  split_ifs <;> first | rfl | omega

/-- C4: for 16-bit register values, the four bytes assembled for the
big-endian IEEE-754 decoder are exactly the permutation the specification
table states for each byte order, with unknown byte orders falling back to
the ABCD assembly. -/
theorem registersToFloatBytes_spec (r1 r2 : ℕ) (byteOrder : String)
    (h1 : r1 < 65536) (h2 : r2 < 65536) :
    registersToFloatBytes [r1, r2] byteOrder = some (specFloatBytes r1 r2 byteOrder) := by
  unfold registersToFloatBytes specFloatBytes pack2BE pack2LE
  split_ifs <;> simp_all

/-- Witness for C4 at `reg1 = 0x1234`, `reg2 = 0xABCD`, byte order `BADC`. -/
theorem registersToFloatBytes_spec_witness :
    registersToFloatBytes [4660, 43981] "BADC" = some (specFloatBytes 4660 43981 "BADC") :=
  registersToFloatBytes_spec 4660 43981 "BADC" (by decide) (by decide)

/-- C7 counterexample: when the schema has no fields the mapping keys are
trivially a superset of the schema keys, so the claim's rule
(`mapped` iff superset) demands `mapped`; the code returns `unmapped`. -/
theorem mappingHealth_emptySchema_counterexample :
    (∅ : Finset String) ⊆ (∅ : Finset String) ∧
    computeMappingHealth ∅ ∅ = Health.unmapped ∧
    computeMappingHealth ∅ ∅ ≠ Health.mapped := by
  refine ⟨Finset.Subset.refl ∅, by simp [computeMappingHealth], by simp [computeMappingHealth]⟩

/-- C7 amended: the recomputed mapping health is `unmapped` whenever the
schema keys or the mapping keys are empty; on a non-empty schema it is
`mapped` iff the mapping keys cover the schema keys, and `partial` iff the
mapping keys are non-empty but do not cover the schema keys. -/
theorem computeMappingHealth_spec (s m : Finset String) :
    (computeMappingHealth s m = Health.mapped ↔ s ≠ ∅ ∧ s ⊆ m) ∧
    (computeMappingHealth s m = Health.partialHealth ↔ s ≠ ∅ ∧ m ≠ ∅ ∧ ¬ s ⊆ m) ∧
    (computeMappingHealth s m = Health.unmapped ↔ s = ∅ ∨ m = ∅) := by
  unfold computeMappingHealth
  split_ifs with h1 h2 h3
  · simp_all
  · constructor
    · simp_all
    constructor
    · simp_all
    · simp only [reduceCtorEq, false_iff]
      rintro (rfl | rfl)
      · exact h1 rfl
      · exact h1 (Finset.subset_empty.mp h2)
  · constructor
    · simp_all
    constructor
    · simp_all
    · simp only [reduceCtorEq, false_iff]
      rintro (rfl | rfl)
      · exact h1 rfl
      · exact h3 rfl
  · have hm : m = ∅ := by
      by_contra hm
      exact h3 hm
    simp_all

/-- C8 counterexample: after a failed batched insert the engine pool entry
for the key is still present — `insert_batch`'s exception handler never calls
`_drop_engine` (which would have emptied the pool, third conjunct). -/
theorem insertBatch_failure_pool_counterexample :
    (flushBatch ⟨["postgres:db"]⟩ ⟨0, 0, 0⟩ "postgres:db" [7] true).1 =
      (⟨["postgres:db"]⟩ : StoragePool) ∧
    "postgres:db" ∈ (flushBatch ⟨["postgres:db"]⟩ ⟨0, 0, 0⟩ "postgres:db" [7] true).1.engines ∧
    dropEngine ⟨["postgres:db"]⟩ "postgres:db" = (⟨[]⟩ : StoragePool) := by
  refine ⟨rfl, by simp [flushBatch, insertBatch, getEnginePool], by simp [dropEngine]⟩

/-- C8 amended: a failed batched insert leaves the engine pool unchanged
(the entry is neither disposed nor removed), records exactly one write error
with `rows_written` untouched, and the batch is lost: the buffer is cleared
without the rows being retried or counted. -/
theorem insertBatch_failure_behavior (p : StoragePool) (m : WriteMetrics)
    (key : String) (buffer : List ℕ) (hb : buffer ≠ []) (hk : key ∈ p.engines) :
    flushBatch p m key buffer true =
      (p, { writes := m.writes + 1, write_errors := m.write_errors + 1
            rows_written := m.rows_written }, []) := by
  unfold flushBatch insertBatch getEnginePool recordWrite
  simp [hb, hk]

/-- Witness for C8 amended: a failed flush of one buffered row against a
pooled engine. -/
theorem insertBatch_failure_behavior_witness :
    flushBatch ⟨["k"]⟩ ⟨2, 3, 5⟩ "k" [9] true =
      ((⟨["k"]⟩ : StoragePool), (⟨3, 4, 5⟩ : WriteMetrics), ([] : List ℕ)) :=
  insertBatch_failure_behavior ⟨["k"]⟩ ⟨2, 3, 5⟩ "k" [9] (by decide) (by decide)

lemma sum_map_length_of_all_eq (N : ℕ) (ws : List (List ℕ))
    (h : ∀ w ∈ ws, w.length = N) : (ws.map List.length).sum = N * ws.length := by
  induction ws with
  | nil => simp
  | cons w ws ih =>
    have hw := h w (List.mem_cons_self w ws)
    have hws := ih (fun x hx => h x (List.mem_cons_of_mem w hx))
    simp [hw, hws, Nat.mul_succ, Nat.add_comm]

lemma enqueueRow_step (N : ℕ) (hN : 1 ≤ N) (s : BatchLog) (row : ℕ)
    (hw : ∀ w ∈ s.writes, w.length = N) (hb : s.buffer.length < N) :
    (∀ w ∈ (enqueueRow N s row).writes, w.length = N) ∧
    (enqueueRow N s row).buffer.length < N ∧
    totalRows (enqueueRow N s row) = totalRows s + 1 := by
  unfold enqueueRow totalRows
  by_cases h : N ≤ (s.buffer ++ [row]).length
  · have hlen : (s.buffer ++ [row]).length = N := by
      simp only [List.length_append, List.length_singleton]
      simp only [List.length_append, List.length_singleton] at h
      omega
    simp only [h, if_true]
    refine ⟨?_, by simpa using hN, ?_⟩
    · intro w hw'
      rcases List.mem_append.mp hw' with h1 | h2
      · exact hw w h1
      · rw [List.mem_singleton.mp h2]
        exact hlen
    · simp only [List.map_append, List.map_cons, List.map_nil, List.sum_append,
        List.sum_cons, List.sum_nil, List.length_nil, hlen]
      simp only [List.length_append, List.length_singleton] at hlen
      omega
  · simp only [h, if_false]
    simp only [List.length_append, List.length_singleton] at h ⊢
    refine ⟨hw, by omega, by omega⟩

lemma enqueueAll_inv (N : ℕ) (hN : 1 ≤ N) (rows : List ℕ) (s : BatchLog)
    (hw : ∀ w ∈ s.writes, w.length = N) (hb : s.buffer.length < N) :
    (∀ w ∈ (enqueueAll N s rows).writes, w.length = N) ∧
    (enqueueAll N s rows).buffer.length < N ∧
    totalRows (enqueueAll N s rows) = totalRows s + rows.length := by
  induction rows generalizing s with
  | nil => exact ⟨hw, hb, rfl⟩
  | cons r rs ih =>
    have h1 := enqueueRow_step N hN s r hw hb
    have h2 := ih (enqueueRow N s r) h1.1 h1.2.1
    have hstep : enqueueAll N s (r :: rs) = enqueueAll N (enqueueRow N s r) rs := rfl
    rw [hstep]
    refine ⟨h2.1, h2.2.1, ?_⟩
    rw [h2.2.2, h1.2.2, List.length_cons]
    omega

/-- C2: for `batch_size = N ≥ 1` and a single table, starting from an empty
buffer: every batch handed to `write_callback` has exactly `N` rows; after
`m` enqueued rows exactly `m / N` write calls have occurred and `m % N` rows
remain buffered (so a write happens exactly on reaching `N` buffered rows,
which empties the buffer, and at no other point); after `k·N` rows exactly
`k` writes have occurred and the buffer is empty; and the stop flush issues
exactly one additional write of the buffered rows when the buffer is
non-empty, and none when it is empty. -/
theorem batchBuffer_spec (N : ℕ) (hN : 1 ≤ N) (rows : List ℕ) :
    (∀ w ∈ (enqueueAll N ⟨[], []⟩ rows).writes, w.length = N) ∧
    (enqueueAll N ⟨[], []⟩ rows).writes.length = rows.length / N ∧
    (enqueueAll N ⟨[], []⟩ rows).buffer.length = rows.length % N ∧
    (∀ k, rows.length = k * N →
      (enqueueAll N ⟨[], []⟩ rows).writes.length = k ∧
      (enqueueAll N ⟨[], []⟩ rows).buffer = []) ∧
    ((enqueueAll N ⟨[], []⟩ rows).buffer ≠ [] →
      stopFlush (enqueueAll N ⟨[], []⟩ rows) =
        { buffer := []
          writes := (enqueueAll N ⟨[], []⟩ rows).writes ++
            [(enqueueAll N ⟨[], []⟩ rows).buffer] }) ∧
    ((enqueueAll N ⟨[], []⟩ rows).buffer = [] →
      stopFlush (enqueueAll N ⟨[], []⟩ rows) = enqueueAll N ⟨[], []⟩ rows) := by
  have hinv := enqueueAll_inv N hN rows ⟨[], []⟩ (by intro w hw; cases hw) (by simpa using hN)
  have htot : totalRows (enqueueAll N ⟨[], []⟩ rows) = rows.length := by
    rw [hinv.2.2]; simp [totalRows]
  have hsum := sum_map_length_of_all_eq N (enqueueAll N ⟨[], []⟩ rows).writes hinv.1
  have heq : (enqueueAll N ⟨[], []⟩ rows).buffer.length +
      N * (enqueueAll N ⟨[], []⟩ rows).writes.length = rows.length := by
    have := htot
    unfold totalRows at this
    rw [hsum] at this
    omega
  have hdm := (Nat.div_mod_unique (a := rows.length) (b := N)
    (c := (enqueueAll N ⟨[], []⟩ rows).buffer.length)
    (d := (enqueueAll N ⟨[], []⟩ rows).writes.length) hN).mpr ⟨heq, hinv.2.1⟩
  refine ⟨hinv.1, hdm.1.symm, hdm.2.symm, ?_, ?_, ?_⟩
  · intro k hk
    have hw : (enqueueAll N ⟨[], []⟩ rows).writes.length = k := by
      rw [hdm.1.symm, hk, Nat.mul_div_cancel k hN]
    have hbuf : (enqueueAll N ⟨[], []⟩ rows).buffer.length = 0 := by
      rw [hdm.2.symm, hk, Nat.mul_mod_left]
    exact ⟨hw, List.length_eq_zero.mp hbuf⟩
  · intro hne
    unfold stopFlush
    simp [hne]
  · intro he
    unfold stopFlush
    simp [he]

/-- Witness for C2 at `batch_size = 2` with three enqueued rows: one write of
two rows has occurred and one row remains buffered. -/
theorem batchBuffer_spec_witness :
    (enqueueAll 2 ⟨[], []⟩ [5, 6, 7]).writes.length = [5, 6, 7].length / 2 ∧
    (enqueueAll 2 ⟨[], []⟩ [5, 6, 7]).buffer.length = [5, 6, 7].length % 2 :=
  ⟨(batchBuffer_spec 2 (by decide) [5, 6, 7]).2.1,
   (batchBuffer_spec 2 (by decide) [5, 6, 7]).2.2.1⟩

lemma p95Index_eq_div (n : ℕ) : p95Index n = 19 * n / 20 := by
  unfold p95Index
  rw [Int.floor_toNat]
  have h : (n : ℚ) * (95 / 100) = ((19 * n : ℕ) : ℚ) / ((20 : ℕ) : ℚ) := by
    push_cast; ring
  rw [h, Nat.floor_div_nat, Nat.floor_natCast]

/-- C9: the metrics summary reports the average latency as the arithmetic
mean of the window and `None` on an empty window; it reports the p95 latency
as `None` when the window holds at most 20 samples, and otherwise as the
element at index `⌊0.95·N⌋ = 19·N/20` of the window sorted ascending (stated
for every ascending reordering of the window), which always exists. -/
theorem latencySummary_spec (lats : List ℚ) :
    (lats = [] → avgLatency lats = none) ∧
    (lats ≠ [] → avgLatency lats = some (lats.sum / (lats.length : ℚ))) ∧
    (lats.length ≤ 20 → p95Latency lats = none) ∧
    (20 < lats.length →
      (∀ sortedw : List ℚ, sortedw.Sorted (· ≤ ·) → sortedw.Perm lats →
        p95Latency lats = sortedw[19 * lats.length / 20]?) ∧
      (p95Latency lats).isSome = true) := by
  refine ⟨?_, ?_, ?_, ?_⟩
  · intro h
    simp [avgLatency, h]
  · intro h
    simp [avgLatency, h]
  · intro h
    unfold p95Latency
    rw [if_neg (by omega)]
  · intro h
    have hsort := List.sorted_insertionSort (· ≤ ·) lats
    have hperm := List.perm_insertionSort (· ≤ ·) lats
    have hlen : (lats.insertionSort (· ≤ ·)).length = lats.length := hperm.length_eq
    constructor
    · intro sw hs hp
      have hsw : sw = lats.insertionSort (· ≤ ·) :=
        List.eq_of_perm_of_sorted (hp.trans hperm.symm) hs hsort
      rw [hsw]
      unfold p95Latency
      rw [if_pos h, p95Index_eq_div]
    · unfold p95Latency
      rw [if_pos h]
      have hidx : p95Index lats.length < (lats.insertionSort (· ≤ ·)).length := by
        rw [hlen, p95Index_eq_div]
        omega
      rw [List.getElem?_eq_getElem hidx]
      rfl

/-- Witness for C9: the mean of a three-sample window, and the p95 of a
21-sample window taken at index `19·21/20 = 19` of the sorted window. -/
theorem latencySummary_spec_witness :
    avgLatency [(1 : ℚ), 2, 3] = some ([(1 : ℚ), 2, 3].sum / (([(1 : ℚ), 2, 3].length : ℕ) : ℚ)) ∧
    p95Latency (List.replicate 21 (0 : ℚ)) =
      (List.replicate 21 (0 : ℚ))[19 * (List.replicate 21 (0 : ℚ)).length / 20]? := by
  constructor
  · exact (latencySummary_spec [(1 : ℚ), 2, 3]).2.1 (by decide)
  · exact ((latencySummary_spec (List.replicate 21 (0 : ℚ))).2.2.2 (by simp)).1
      (List.replicate 21 (0 : ℚ)) (by decide) (List.Perm.refl _)

lemma cooldownGate_inv (c : ℚ) (hc : 0 < c) (ckey : String) (now : ℚ)
    (fired0 : Bool) (s : EvalState)
    (h1 : List.Chain' (fun a b => a + c ≤ b) s.fireLog)
    (h2 : s.cooldowns ckey = s.fireLog.getLast?) :
    List.Chain' (fun a b => a + c ≤ b) (cooldownGate c ckey now fired0 s).fireLog ∧
    (cooldownGate c ckey now fired0 s).cooldowns ckey =
      (cooldownGate c ckey now fired0 s).fireLog.getLast? := by
  unfold cooldownGate
  cases hf : fired0 with
  | false =>
    simp only [Bool.false_and, Bool.false_eq_true, if_false]
    exact ⟨h1, h2⟩
  | true =>
    have hc' : decide (0 < c) = true := decide_eq_true hc
    cases hcd : s.cooldowns ckey with
    | none =>
      have hlog : s.fireLog = [] := by
        cases hl : s.fireLog with
        | nil => rfl
        | cons a l =>
          rw [hcd, hl] at h2
          simp [List.getLast?] at h2
      simp only [hcd, hc', Bool.true_and, Bool.and_false, Bool.false_eq_true, if_false, if_true]
      refine ⟨?_, ?_⟩
      · rw [hlog]
        exact List.chain'_singleton now
      · simp [List.getLast?_concat]
    | some t0 =>
      simp only [hcd, hc', Bool.true_and]
      by_cases hlt : now - t0 < c
      · simp only [hlt, decide_True, if_true]
        exact ⟨h1, by simpa [hcd] using h2⟩
      · simp only [hlt, decide_False, Bool.false_eq_true, if_false, if_true]
        refine ⟨?_, ?_⟩
        · rw [List.chain'_append]
          refine ⟨h1, List.chain'_singleton now, ?_⟩
          intro x hx y hy
          rw [← h2, hcd] at hx
          simp only [Option.mem_def, Option.some_inj] at hx
          simp only [List.head?_cons, Option.mem_def, Option.some_inj] at hy
          subst hx
          subst hy
          linarith [le_of_not_lt hlt]
        · simp [List.getLast?_concat]

lemma runCooldown_inv (c : ℚ) (hc : 0 < c) (ckey : String)
    (events : List (ℚ × Bool)) (s : EvalState)
    (h1 : List.Chain' (fun a b => a + c ≤ b) s.fireLog)
    (h2 : s.cooldowns ckey = s.fireLog.getLast?) :
    List.Chain' (fun a b => a + c ≤ b) (runCooldown c ckey s events).fireLog ∧
    (runCooldown c ckey s events).cooldowns ckey =
      (runCooldown c ckey s events).fireLog.getLast? := by
  induction events generalizing s with
  | nil => exact ⟨h1, h2⟩
  | cons e es ih =>
    have hstep := cooldownGate_inv c hc ckey e.1 e.2 s h1 h2
    exact ih (cooldownGate c ckey e.1 e.2 s) hstep.1 hstep.2

/-- C5: with `cooldown_ms = c > 0`, (i) a fire occurring less than `c` ms
after the stored last non-suppressed fire of the same `(table_id, field)`
key is suppressed: only the metrics change (`triggers_suppressed` and, due to
the double recording, the evaluated/fired counters), while `any_fired`, the
last-fire timestamp and the fire log are untouched — so a suppressed fire
neither contributes to the write decision nor resets the cooldown window;
(ii) over any sequence of evaluations starting from a fresh cooldown map,
consecutive non-suppressed fires of the key are at least `c` ms apart. -/
theorem cooldownSuppression_spec (c : ℚ) (hc : 0 < c) :
    (∀ (ckey : String) (now t0 : ℚ) (s : EvalState),
      s.cooldowns ckey = some t0 → now - t0 < c →
      cooldownGate c ckey now true s =
        { s with metrics := recordTrigger (recordTrigger s.metrics true true) false false }) ∧
    (∀ (ckey : String) (m : TrigMetrics) (af : Bool) (events : List (ℚ × Bool)),
      List.Chain' (fun a b => a + c ≤ b)
        (runCooldown c ckey
          { cooldowns := fun _ => none, metrics := m, anyFired := af, fireLog := [] }
          events).fireLog) := by
  constructor
  · intro ckey now t0 s hcd hlt
    unfold cooldownGate
    simp [hcd, hc, hlt]
  · intro ckey m af events
    exact (runCooldown_inv c hc ckey events
      { cooldowns := fun _ => none, metrics := m, anyFired := af, fireLog := [] }
      List.chain'_nil rfl).1

/-- Witness for C5: with `c = 100`, a fire at `t = 50` against a last fire at
`t = 0` is suppressed unchanged except for the metrics, and the run over
fires at `t = 0, 50, 200` logs non-suppressed fires spaced at least 100 ms. -/
theorem cooldownSuppression_spec_witness :
    cooldownGate 100 "t:f" 50 true
        ⟨fun k => if k = "t:f" then some 0 else none, ⟨0, 0, 0⟩, false, [0]⟩ =
      { cooldowns := fun k => if k = "t:f" then some 0 else none
        metrics := recordTrigger (recordTrigger ⟨0, 0, 0⟩ true true) false false
        anyFired := false
        fireLog := [0] } ∧
    List.Chain' (fun a b => a + 100 ≤ b)
      (runCooldown 100 "t:f" ⟨fun _ => none, ⟨0, 0, 0⟩, false, []⟩
        [(0, true), (50, true), (200, true)]).fireLog := by
  constructor
  · exact (cooldownSuppression_spec 100 (by norm_num)).1 "t:f" 50 0 _ rfl (by norm_num)
  · exact (cooldownSuppression_spec 100 (by norm_num)).2 "t:f" ⟨0, 0, 0⟩ false
      [(0, true), (50, true), (200, true)]

/-- C6 counterexample: one evaluation call with a single `change` trigger
whose fire falls inside the cooldown window. The trigger's field is present
in `values` (second conjunct), yet `triggers_evaluated` grows by 2, not 1:
the suppression path records the trigger once as a suppressed fire and then
falls through to the not-fired recording. -/
theorem triggersEvaluated_double_count :
    ((evaluateTriggers "t" [("f", PyVal.num 1)] [("f", PyVal.num 0)] 500
        [⟨"f", "change", none, 0, 1000⟩] (fun k => if k = "t:f" then some 0 else none)
        ⟨0, 0, 0⟩ []).map (fun r => r.state.metrics.evaluated)) = some 2 ∧
    countPresent [("f", PyVal.num 1)] [⟨"f", "change", none, 0, 1000⟩] = 1 := by
  constructor
  · have h1 : |(1 : ℚ) - 0| > (0 : ℚ) := by norm_num
    have h2 : (500 : ℚ) - (0 : ℚ) < 1000 := by norm_num
    have h2' : (500 : ℚ) < 1000 := by norm_num
    have h3 : (0 : ℚ) < 1000 := by norm_num
    have hk : ("t" : String) ++ ":" ++ "f" = "t:f" := rfl
    simp [evaluateTriggers, evalTriggersAux, triggerStep, opFired, changeFired,
      cooldownGate, recordTrigger, List.lookup, hk, h1, h2, h2', h3]
  · rfl

lemma cooldownGate_counts (c : ℚ) (ckey : String) (now : ℚ) (fired0 : Bool)
    (s : EvalState) :
    (cooldownGate c ckey now fired0 s).metrics.evaluated + s.metrics.suppressed =
      s.metrics.evaluated + 1 + (cooldownGate c ckey now fired0 s).metrics.suppressed := by
  unfold cooldownGate
  cases fired0 with
  | false => simp [recordTrigger]
  | true =>
    cases hcd : s.cooldowns ckey with
    | none => simp [hcd, recordTrigger]
    | some t0 =>
      cases hdc : decide (0 < c) with
      | false => simp [hcd, hdc, recordTrigger]
      | true =>
        cases hdl : decide (now - t0 < c) with
        | false => simp [hcd, hdc, hdl, recordTrigger]
        | true =>
          simp [hcd, hdc, hdl, recordTrigger]
          omega

lemma countPresent_cons (values : List (String × PyVal)) (t : Trigger)
    (ts : List Trigger) :
    countPresent values (t :: ts) =
      countPresent values ts + (if (values.lookup t.field).isSome then 1 else 0) := by
  unfold countPresent
  rw [List.filter_cons]
  split_ifs with h
  · simp [h]
  · simp [h]

lemma triggerStep_absent (tableId : String) (values lastValues : List (String × PyVal))
    (now : ℚ) (s : EvalState) (t : Trigger) (hv : values.lookup t.field = none) :
    triggerStep tableId values lastValues now s t = some s := by
  unfold triggerStep
  rw [hv]

lemma triggerStep_present (tableId : String) (values lastValues : List (String × PyVal))
    (now : ℚ) (s : EvalState) (t : Trigger) (nv : PyVal) (fired0 : Bool)
    (hv : values.lookup t.field = some nv)
    (ho : opFired t.operator nv (lastValues.lookup t.field) t.value t.deadband = some fired0) :
    triggerStep tableId values lastValues now s t =
      some (cooldownGate t.cooldown_ms (tableId ++ ":" ++ t.field) now fired0 s) := by
  unfold triggerStep
  rw [hv]
  show (match opFired t.operator nv (lastValues.lookup t.field) t.value t.deadband with
    | none => none
    | some fired0 =>
        some (cooldownGate t.cooldown_ms (tableId ++ ":" ++ t.field) now fired0 s)) = _
  rw [ho]

lemma triggerStep_error (tableId : String) (values lastValues : List (String × PyVal))
    (now : ℚ) (s : EvalState) (t : Trigger) (nv : PyVal)
    (hv : values.lookup t.field = some nv)
    (ho : opFired t.operator nv (lastValues.lookup t.field) t.value t.deadband = none) :
    triggerStep tableId values lastValues now s t = none := by
  unfold triggerStep
  rw [hv]
  show (match opFired t.operator nv (lastValues.lookup t.field) t.value t.deadband with
    | none => none
    | some fired0 =>
        some (cooldownGate t.cooldown_ms (tableId ++ ":" ++ t.field) now fired0 s)) = _
  rw [ho]

lemma evalTriggersAux_counts (tableId : String) (values lastValues : List (String × PyVal))
    (now : ℚ) (triggers : List Trigger) (s s' : EvalState)
    (h : evalTriggersAux tableId values lastValues now triggers s = some s') :
    s'.metrics.evaluated + s.metrics.suppressed =
      s.metrics.evaluated + countPresent values triggers + s'.metrics.suppressed := by
  induction triggers generalizing s with
  | nil =>
    unfold evalTriggersAux at h
    cases h
    simp [countPresent]
  | cons t ts ih =>
    have hm : (match triggerStep tableId values lastValues now s t with
        | none => none
        | some s1 => evalTriggersAux tableId values lastValues now ts s1) = some s' := h
    cases hv : values.lookup t.field with
    | none =>
      rw [triggerStep_absent tableId values lastValues now s t hv] at hm
      have h1 : evalTriggersAux tableId values lastValues now ts s = some s' := hm
      have hrec := ih s h1
      rw [countPresent_cons, hv]
      simpa using hrec
    | some nv =>
      cases ho : opFired t.operator nv (lastValues.lookup t.field) t.value t.deadband with
      | none =>
        rw [triggerStep_error tableId values lastValues now s t nv hv ho] at hm
        exact absurd hm (by simp)
      | some f0 =>
        rw [triggerStep_present tableId values lastValues now s t nv f0 hv ho] at hm
        have h1 : evalTriggersAux tableId values lastValues now ts
            (cooldownGate t.cooldown_ms (tableId ++ ":" ++ t.field) now f0 s) = some s' := hm
        have hrec := ih _ h1
        have hd := cooldownGate_counts t.cooldown_ms (tableId ++ ":" ++ t.field) now f0 s
        rw [countPresent_cons, hv]
        simp only [Option.isSome_some, if_true]
        omega

/-- C6 amended: in one evaluation call, every configured trigger whose field
is present in `values` contributes exactly one increment to
`triggers_evaluated`, **except** a trigger suppressed by cooldown, which
contributes two (once recorded as a suppressed fire and once as not fired);
triggers whose field is absent contribute none. Stated as: the growth of
`triggers_evaluated` equals the number of present triggers plus the growth
of `triggers_suppressed`. -/
theorem triggersEvaluated_count_spec (tableId : String)
    (values lastValues : List (String × PyVal)) (now : ℚ) (triggers : List Trigger)
    (cds : String → Option ℚ) (m : TrigMetrics) (log : List ℚ) (r : EvalResult)
    (h : evaluateTriggers tableId values lastValues now triggers cds m log = some r) :
    r.state.metrics.evaluated + m.suppressed =
      m.evaluated + countPresent values triggers + r.state.metrics.suppressed := by
  unfold evaluateTriggers at h
  cases haux : evalTriggersAux tableId values lastValues now triggers
      { cooldowns := cds, metrics := m, anyFired := false, fireLog := log } with
  | none => rw [haux] at h; cases h
  | some s' =>
    rw [haux] at h
    cases h
    exact evalTriggersAux_counts tableId values lastValues now triggers _ s' haux

/-- Witness for C6 amended: one present `>` trigger that fires without
suppression — `triggers_evaluated` grows by exactly one. -/
theorem triggersEvaluated_count_spec_witness :
    (1 : ℕ) + 0 = 0 + countPresent [("f", PyVal.num 5)] [⟨"f", ">", some 3, 0, 0⟩] + 0 :=
  triggersEvaluated_count_spec "t" [("f", PyVal.num 5)] [("f", PyVal.num 4)] 0
    [⟨"f", ">", some 3, 0, 0⟩] (fun _ => none) ⟨0, 0, 0⟩ []
    ⟨⟨fun k => if k = "t:f" then some 0 else none, ⟨1, 1, 0⟩, true, [0]⟩,
      [("f", PyVal.num 5)], true⟩ rfl

/-- C10: after a successful trigger evaluation for a `(job_id, table_id)`
pair, the stored last-values map is replaced wholesale by (a copy of) the
`values` dictionary: every field present in `values` maps to its new value
and every previously stored field absent from `values` is gone; and a
`change`, `rising` or `falling` evaluation with no stored prior value never
fires, so such a field behaves as if no value had ever been observed. -/
theorem lastValues_replaced_spec (tableId : String)
    (values lastValues : List (String × PyVal)) (now : ℚ) (triggers : List Trigger)
    (cds : String → Option ℚ) (m : TrigMetrics) (log : List ℚ) (r : EvalResult)
    (h : evaluateTriggers tableId values lastValues now triggers cds m log = some r) :
    r.lastValuesOut = values ∧
    (∀ f, r.lastValuesOut.lookup f = values.lookup f) ∧
    (∀ f, values.lookup f = none → r.lastValuesOut.lookup f = none) ∧
    (∀ (nv : PyVal) (th : Option ℚ) (d : ℚ),
      changeFired none nv d = some false ∧
      opFired "rising" nv none th d = some false ∧
      opFired "falling" nv none th d = some false) := by
  have hout : r.lastValuesOut = values := by
    unfold evaluateTriggers at h
    cases haux : evalTriggersAux tableId values lastValues now triggers
        { cooldowns := cds, metrics := m, anyFired := false, fireLog := log } with
    | none => rw [haux] at h; cases h
    | some s' => rw [haux] at h; cases h; rfl
  refine ⟨hout, fun f => by rw [hout], fun f hf => by rw [hout]; exact hf, ?_⟩
  intro nv th d
  exact ⟨rfl, rfl, rfl⟩

/-- Witness for C10: after an evaluation whose `values` lack the previously
stored field `"h"`, the stored map no longer contains `"h"`, and a `change`
evaluation with no prior value does not fire. -/
theorem lastValues_replaced_spec_witness :
    ((⟨⟨fun _ => none, ⟨0, 0, 0⟩, false, []⟩, [("g", PyVal.num 2)], false⟩ :
        EvalResult).lastValuesOut).lookup "h" = none ∧
    changeFired none (PyVal.num 2) 0 = some false := by
  have h := lastValues_replaced_spec "t" [("g", PyVal.num 2)] [("h", PyVal.num 9)] 0 []
    (fun _ => none) ⟨0, 0, 0⟩ []
    ⟨⟨fun _ => none, ⟨0, 0, 0⟩, false, []⟩, [("g", PyVal.num 2)], false⟩ rfl
  exact ⟨h.2.2.1 "h" (by decide), (h.2.2.2 (PyVal.num 2) none 0).1⟩

end LoggerDeploy
